import Mathlib

/-
Verification of the PWSpy analysis pipeline and results record against its
natural-language specification.

The Python sources embedded here are
  src/pwspy/analysis/pws.py            (PWSAnalysis, PWSAnalysisResults,
                                        PWSAnalysisSettings, clearError,
                                        getFromDict)
  src/pwspy/analysis/analysisClass.py  (legacy Analysis variant)
  src/pwspy/analysis/analysisResults.py (legacy AnalysisResults record,
                                        AnalysisResultsLoader)

Numeric arrays are embedded as nested lists: a cube is a list of per-pixel
spectra (the row-major flattening of the (row, column) grid, exactly the
flattening the source itself performs before its vectorised operations), a
2D per-pixel map is a list of scalars in the same pixel order.  Spectral
samples are real numbers; the purely structural persistence layer is
embedded over rationals so that it stays decidable.

Methods of the `ImCube`/`KCube` data classes and library calls
(`np.polyfit`, `scipy.signal`) whose bodies are not part of this
repository snapshot are either modelled from the specification (marked
`Modelled from the spec:`) or abstracted as explicit deterministic
function parameters collected in `PipelineDeps`.
-/

set_option maxHeartbeats 1000000

namespace PWSpy

/-- An image cube: per-pixel spectra plus the shared wavelength axis,
exposure time and provenance id (data model, spec section 3). -/
structure ImCube where
  data : List (List ℝ)
  wavelengths : List ℝ
  exposure : ℝ
  idTag : String

/-- An extra-reflection cube (predicted stray counts/ms) with its
calibration id tag. -/
structure ExtraReflectionCube where
  data : List (List ℝ)
  idTag : String

/-- Element-wise binary operation between two equal-shaped cubes. -/
def cubeZip {α : Type} (f : α → α → α) (a b : List (List α)) : List (List α) :=
  List.zipWith (fun pa pb => List.zipWith f pa pb) a b

/-- Mean of a list of reals (`ndarray.mean` along the spectral axis). -/
noncomputable def listMean (xs : List ℝ) : ℝ :=
  xs.sum / xs.length

/-- Population standard deviation (`ndarray.std` along the spectral axis):
square root of the mean squared deviation from the mean. -/
noncomputable def listStd (xs : List ℝ) : ℝ :=
  Real.sqrt (listMean (xs.map (fun x => (x - listMean xs) ^ 2)))

namespace ImCube

/-- Modelled from the spec: `ImCube.normalizeByExposure` (the `ImCube` class
body is not under `src/`).  Exposure normalization divides every spectral
sample by the cube exposure time (spec section 4.1). -/
noncomputable def normalizeByExposure (c : ImCube) : ImCube :=
  { c with data := c.data.map (fun px => px.map (fun v => v / c.exposure)) }

/-- Modelled from the spec: `ImCube.subtractExtraReflection` subtracts the
extra-reflection cube element-wise (spec sections 4.1 and glossary). -/
noncomputable def subtractExtraReflection (c : ImCube) (e : ExtraReflectionCube) : ImCube :=
  { c with data := cubeZip (fun a b => a - b) c.data e.data }

/-- Modelled from the spec: `ImCube.normalizeByReference` divides the sample
cube pixelwise and per spectral index by the reference cube
(spec section 4.1). -/
noncomputable def normalizeByReference (c ref : ImCube) : ImCube :=
  { c with data := cubeZip (fun a b => a / b) c.data ref.data }

/-- Modelled from the spec: division of a cube by a per-wavelength theoretical
reflectance spectrum; this is `ref / theoryR[None, None, :]` in
`PWSAnalysis.__init__` (spec section 4.1, absolute-units conversion). -/
noncomputable def divideByTheory (c : ImCube) (theoryR : List ℝ) : ImCube :=
  { c with data := c.data.map (fun px => List.zipWith (fun a b => a / b) px theoryR) }

/-- Modelled from the spec: `ImCube.selIndex` restricts a cube to the spectral
indices whose wavelength lies within `[start, stop]` inclusive
(spec section 4.3, `selectRange`). -/
noncomputable def selIndex (c : ImCube) (start stop : ℝ) : ImCube :=
  { c with
    wavelengths := c.wavelengths.filter (fun w => decide (start ≤ w ∧ w ≤ stop)),
    data := c.data.map (fun px =>
      (List.zipWith (fun v w => (v, w)) px c.wavelengths).filterMap
        (fun p => if start ≤ p.2 ∧ p.2 ≤ stop then some p.1 else none)) }

end ImCube

/-- The reference-material enumeration (`pwspy.moduleConsts.Material`, not
under `src/`); the members are the ones the repository refers to. -/
inductive Material where
  | Glass | Water | Air | Silicon | Oil_1_7 | Oil_1_4 | Ipa | Ethanol | ITO
  deriving DecidableEq

/-- Python `Material.<member>.name`. -/
def Material.name : Material → String
  | .Glass => "Glass"
  | .Water => "Water"
  | .Air => "Air"
  | .Silicon => "Silicon"
  | .Oil_1_7 => "Oil_1_7"
  | .Oil_1_4 => "Oil_1_4"
  | .Ipa => "Ipa"
  | .Ethanol => "Ethanol"
  | .ITO => "ITO"

/-- Python `Material[name]` (enum lookup by member name; raises on an unknown
name, embedded as `none`). -/
def Material.ofName : String → Option Material
  | "Glass" => some .Glass
  | "Water" => some .Water
  | "Air" => some .Air
  | "Silicon" => some .Silicon
  | "Oil_1_7" => some .Oil_1_7
  | "Oil_1_4" => some .Oil_1_4
  | "Ipa" => some .Ipa
  | "Ethanol" => some .Ethanol
  | "ITO" => some .ITO
  | _ => none

/-- Modelled from the spec: the camera correction descriptor
(`pwspy.dataTypes.CameraCorrection`, not under `src/`): a dark-count offset
and an optional linearity polynomial. -/
structure CameraCorrection where
  darkCounts : ℚ
  linearityPolynomial : Option (List ℚ)
  deriving DecidableEq

/-- `PWSAnalysisSettings` from `pws.py`, field for field. -/
structure PWSAnalysisSettings where
  filterOrder : ℕ
  filterCutoff : ℝ
  polynomialOrder : ℕ
  extraReflectanceId : Option String
  referenceMaterial : Option Material
  wavelengthStart : ℤ
  wavelengthStop : ℤ
  skipAdvanced : Bool
  autoCorrStopIndex : ℕ
  autoCorrMinSub : Bool
  numericalAperture : ℝ
  relativeUnits : Bool
  cameraCorrection : Option CameraCorrection

/-- The dictionary form produced by `PWSAnalysisSettings._asDict`: the same
fields with `referenceMaterial` replaced by the enum member name. -/
structure PWSSettingsDict where
  filterOrder : ℕ
  filterCutoff : ℝ
  polynomialOrder : ℕ
  extraReflectanceId : Option String
  referenceMaterial : Option String
  wavelengthStart : ℤ
  wavelengthStop : ℤ
  skipAdvanced : Bool
  autoCorrStopIndex : ℕ
  autoCorrMinSub : Bool
  numericalAperture : ℝ
  relativeUnits : Bool
  cameraCorrection : Option CameraCorrection

/-- `PWSAnalysisSettings._asDict`: `dataclasses.asdict` plus conversion of the
`referenceMaterial` enum to its name string (or `None`). -/
def PWSAnalysisSettings.asDict (s : PWSAnalysisSettings) : PWSSettingsDict :=
  { filterOrder := s.filterOrder
    filterCutoff := s.filterCutoff
    polynomialOrder := s.polynomialOrder
    extraReflectanceId := s.extraReflectanceId
    referenceMaterial := s.referenceMaterial.map Material.name
    wavelengthStart := s.wavelengthStart
    wavelengthStop := s.wavelengthStop
    skipAdvanced := s.skipAdvanced
    autoCorrStopIndex := s.autoCorrStopIndex
    autoCorrMinSub := s.autoCorrMinSub
    numericalAperture := s.numericalAperture
    relativeUnits := s.relativeUnits
    cameraCorrection := s.cameraCorrection }

/-- `PWSAnalysisSettings._fromDict`: converts the `referenceMaterial` name back
to the enum member (a failing enum lookup, a `KeyError` in Python, is the
`none` result).  The legacy-file defaulting of missing keys does not arise
here because `PWSSettingsDict` carries every key. -/
def PWSAnalysisSettings.fromDict (d : PWSSettingsDict) : Option PWSAnalysisSettings :=
  match d.referenceMaterial with
  | none => some
      { filterOrder := d.filterOrder
        filterCutoff := d.filterCutoff
        polynomialOrder := d.polynomialOrder
        extraReflectanceId := d.extraReflectanceId
        referenceMaterial := none
        wavelengthStart := d.wavelengthStart
        wavelengthStop := d.wavelengthStop
        skipAdvanced := d.skipAdvanced
        autoCorrStopIndex := d.autoCorrStopIndex
        autoCorrMinSub := d.autoCorrMinSub
        numericalAperture := d.numericalAperture
        relativeUnits := d.relativeUnits
        cameraCorrection := d.cameraCorrection }
  | some nm =>
    match Material.ofName nm with
    | none => none
    | some m => some
        { filterOrder := d.filterOrder
          filterCutoff := d.filterCutoff
          polynomialOrder := d.polynomialOrder
          extraReflectanceId := d.extraReflectanceId
          referenceMaterial := some m
          wavelengthStart := d.wavelengthStart
          wavelengthStop := d.wavelengthStop
          skipAdvanced := d.skipAdvanced
          autoCorrStopIndex := d.autoCorrStopIndex
          autoCorrMinSub := d.autoCorrMinSub
          numericalAperture := d.numericalAperture
          relativeUnits := d.relativeUnits
          cameraCorrection := d.cameraCorrection }

/-- Values held by the dictionary backing an in-memory `PWSAnalysisResults`
record (`PWSAnalysisResults.create` in `pws.py`): Python `None`, strings,
per-pixel arrays, the reflectance `KCube`, or the settings object. -/
inductive PWSVal where
  | vNone
  | vStr (s : String)
  | vArr (a : List ℝ)
  | vKCube (data : List (List ℝ)) (wavenumbers : List ℝ)
  | vSettings (s : PWSAnalysisSettings)

/-- Deterministic implementations for the stages of `PWSAnalysis.run` whose
bodies live outside this repository snapshot: the scipy Butterworth
filter (`_filterSignal` wraps `sps.butter` and `sps.filtfilt`), the
`np.polyfit` least-squares solve, the `KCube.fromImCube` wavelength to
wavenumber conversion, and the `KCube.getAutoCorrelation` method. -/
structure PipelineDeps where
  filterSignal : ℕ → ℝ → List (List ℝ) → ℝ → List (List ℝ)
  npPolyfit : List ℝ → List (List ℝ) → ℕ → List (List ℝ)
  kConvert : List (List ℝ) → List ℝ → List (List ℝ) × List ℝ
  getAutoCorrelation : Bool → ℕ → List (List ℝ) → List ℝ → List ℝ × List ℝ

namespace PWSAnalysis

/-- `PWSAnalysis._normalizeImCube` (pws.py): exposure normalization, then
extra-reflection subtraction when an extra-reflection cube is held, then
division by the (already corrected) reference. -/
noncomputable def normalizeImCube (ref : ImCube) (extraReflection : Option ExtraReflectionCube)
    (cube : ImCube) : ImCube :=
  let cube := cube.normalizeByExposure
  let cube :=
    match extraReflection with
    | some e => cube.subtractExtraReflection e
    | none => cube
  cube.normalizeByReference ref

/-- The reference preparation performed once in `PWSAnalysis.__init__`
(pws.py): exposure normalization, the optional dust blur (an out-of-scope
smoothing, abstracted as `filterDust`, applied only when a pixel size is
recorded), extra-reflection subtraction when a calibration is supplied,
and division by the theoretical reflectance when absolute units are
requested. -/
noncomputable def prepareReference (settings : PWSAnalysisSettings)
    (Iextra : Option ExtraReflectionCube) (theoryR : List ℝ)
    (filterDust : ImCube → ImCube) (hasPixelSize : Bool) (ref : ImCube) : ImCube :=
  let ref := ref.normalizeByExposure
  let ref := if hasPixelSize then filterDust ref else ref
  let ref :=
    match Iextra with
    | some e => ref.subtractExtraReflection e
    | none => ref
  if !settings.relativeUnits then ref.divideByTheory theoryR else ref

/-- `PWSAnalysis._fitPolynomial` (pws.py): the cube is flattened to
spectral-major 2D form (`reshape` plus `rollaxis`, embedded as
`transpose`), `np.polyfit` produces one coefficient column per pixel
(highest power first), and the fit values are rebuilt by the loop
`cubePoly += wavenumbers ** i * polydata[order - i]`. -/
noncomputable def fitPolynomial (npPolyfit : List ℝ → List (List ℝ) → ℕ → List (List ℝ))
    (order : ℕ) (wavenumbers : List ℝ) (data : List (List ℝ)) : List (List ℝ) :=
  let flattenedData := data.transpose
  let polydata := npPolyfit wavenumbers flattenedData order
  polydata.transpose.map (fun coeffs =>
    wavenumbers.map (fun w =>
      ((List.range (order + 1)).map (fun i => w ^ i * coeffs.getD (order - i) 0)).sum))

/-- `PWSAnalysis._calculateLd` (pws.py): per pixel,
`((A2 / A1) * fact) * (rms / (-1 * slope))` with `k = 2 pi / 0.55`,
`fact = 1.38 * 1.38 / 2 / k / k`, `A1 = 0.008`, `A2 = 4`. -/
noncomputable def calculateLd (rms slope : List ℝ) : List ℝ :=
  let k : ℝ := 2 * Real.pi / 0.55
  let fact : ℝ := 1.38 * 1.38 / 2 / k / k
  let A1 : ℝ := 0.008
  let A2 : ℝ := 4
  List.zipWith (fun r s => ((A2 / A1) * fact) * (r / (-1 * s))) rms slope

/-- The dictionary literal built by `PWSAnalysisResults.create` (pws.py), in
source order.  `datetime.now()` is the `time` argument: it is the only
input of `create` that is not a function of the analysis inputs. -/
def createDict (time : String) (reflectance : PWSVal) (meanReflectance rms : List ℝ)
    (polynomialRms autoCorrelationSlope rSquared ld : PWSVal)
    (imCubeIdTag referenceIdTag : String) (extraReflectionTag : Option String)
    (settings : PWSAnalysisSettings) : List (String × PWSVal) :=
  [("time", PWSVal.vStr time),
   ("reflectance", reflectance),
   ("meanReflectance", PWSVal.vArr meanReflectance),
   ("rms", PWSVal.vArr rms),
   ("polynomialRms", polynomialRms),
   ("autoCorrelationSlope", autoCorrelationSlope),
   ("rSquared", rSquared),
   ("ld", ld),
   ("imCubeIdTag", PWSVal.vStr imCubeIdTag),
   ("referenceIdTag", PWSVal.vStr referenceIdTag),
   ("extraReflectionTag",
     match extraReflectionTag with
     | some t => PWSVal.vStr t
     | none => PWSVal.vNone),
   ("settings", PWSVal.vSettings settings)]

/-- `PWSAnalysis.run` (pws.py), statement by statement: normalization,
low-pass filtering at the sample rate `1 / interval`, wavelength-range
selection, per-pixel mean reflectance, conversion to k-space, polynomial
fit and detrend, RMS, and (unless `skipAdvanced`) polynomial RMS,
autocorrelation slope with goodness of fit, and Ld; the results are
packaged through `PWSAnalysisResults.create`. -/
noncomputable def run (deps : PipelineDeps) (settings : PWSAnalysisSettings)
    (ref : ImCube) (extraReflection : Option ExtraReflectionCube)
    (now : String) (cube : ImCube) : List (String × PWSVal) :=
  let cube1 := normalizeImCube ref extraReflection cube
  let interval : ℝ :=
    ((cube1.wavelengths.max?.getD 0) - (cube1.wavelengths.min?.getD 0)) /
      ((cube1.wavelengths.length : ℝ) - 1)
  let cube2 := { cube1 with
    data := deps.filterSignal settings.filterOrder settings.filterCutoff cube1.data (1 / interval) }
  let cube3 := cube2.selIndex settings.wavelengthStart settings.wavelengthStop
  let reflectance := cube3.data.map listMean
  let kc := deps.kConvert cube3.data cube3.wavelengths
  let cubePoly := fitPolynomial deps.npPolyfit settings.polynomialOrder kc.2 kc.1
  let kdata := cubeZip (fun a b => a - b) kc.1 cubePoly
  let rms := kdata.map listStd
  let adv :=
    if !settings.skipAdvanced then
      let rmsPoly := cubePoly.map listStd
      let sr := deps.getAutoCorrelation settings.autoCorrMinSub settings.autoCorrStopIndex kdata kc.2
      let ld := calculateLd rms sr.1
      (PWSVal.vArr rmsPoly, PWSVal.vArr sr.1, PWSVal.vArr sr.2, PWSVal.vArr ld)
    else
      (PWSVal.vNone, PWSVal.vNone, PWSVal.vNone, PWSVal.vNone)
  createDict now (PWSVal.vKCube kdata kc.2) reflectance rms
    adv.1 adv.2.1 adv.2.2.1 adv.2.2.2
    cube.idTag ref.idTag (extraReflection.map (fun e => e.idTag)) settings

end PWSAnalysis

/-- Reading a field of a dictionary-backed record (`getFromDict` when
`self.file is None`, composed with `clearError`, pws.py): a missing key
raises `KeyError` which `clearError` re-raises with the message naming the
accessor. -/
def getFromDictAccess (d : List (String × PWSVal)) (name : String) : Except String PWSVal :=
  match d.lookup name with
  | some v => Except.ok v
  | none => Except.error ("The analysis file does not contain a " ++ name ++ " item.")

namespace Analysis

/-- `Analysis._normalizeImCube` (analysisClass.py, the legacy variant): camera
correction (an out-of-scope collaborator, abstracted as `cameraCorrect`)
and exposure normalization of both cubes, then division by the reference;
this variant performs no extra-reflection subtraction at all. -/
noncomputable def normalizeImCube (cameraCorrect : ImCube → ImCube)
    (cube ref : ImCube) : ImCube :=
  let cube := cameraCorrect cube
  let cube := cube.normalizeByExposure
  let ref := cameraCorrect ref
  let ref := ref.normalizeByExposure
  cube.normalizeByReference ref

/-- `Analysis._calculateLd` (analysisClass.py): textually the same formula as
`PWSAnalysis._calculateLd`. -/
noncomputable def calculateLd (rms slope : List ℝ) : List ℝ :=
  let k : ℝ := 2 * Real.pi / 0.55
  let fact : ℝ := 1.38 * 1.38 / 2 / k / k
  let A1 : ℝ := 0.008
  let A2 : ℝ := 4
  List.zipWith (fun r s => ((A2 / A1) * fact) * (r / (-1 * s))) rms slope

end Analysis

/-- Stated from the words of spec section 4.1, for the refinement claim about
correction ordering: exposure normalization of the sample first, then
extra-reflection subtraction whenever a calibration cube is supplied, then
division by the corrected reference. -/
noncomputable def specNormalizeSample (refCorrected : ImCube)
    (Iextra : Option ExtraReflectionCube) (cube : ImCube) : ImCube :=
  let exposed := cube.normalizeByExposure
  let subtracted :=
    match Iextra with
    | some e => exposed.subtractExtraReflection e
    | none => exposed
  subtracted.normalizeByReference refCorrected

/-- Stated from the words of spec section 4.1, reference path: exposure
normalization first, then (after the incidental dust blur) extra-reflection
subtraction, then conversion to absolute units when `relativeUnits` is
false. -/
noncomputable def specCorrectReference (relativeUnits : Bool)
    (Iextra : Option ExtraReflectionCube) (theoryR : List ℝ)
    (dustBlur : ImCube → ImCube) (hasPixelSize : Bool) (ref : ImCube) : ImCube :=
  let exposed := ref.normalizeByExposure
  let blurred := if hasPixelSize then dustBlur exposed else exposed
  let subtracted :=
    match Iextra with
    | some e => blurred.subtractExtraReflection e
    | none => blurred
  if relativeUnits then subtracted else subtracted.divideByTheory theoryR

/-- The order the spec forbids: extra-reflection subtraction performed after
reference-ratio normalization. -/
noncomputable def subtractAfterRatio (ref : ImCube) (e : ExtraReflectionCube)
    (cube : ImCube) : ImCube :=
  (cube.normalizeByExposure.normalizeByReference ref).subtractExtraReflection e

/-- The Ld formula exactly as the spec states it:
`ld = (A2/A1) * fact * rms / (-slope)` with `A1 = 0.008`, `A2 = 4`,
`k = 2 pi / 0.55` and `fact = 1.38 ^ 2 / (2 k ^ 2)`. -/
noncomputable def ldSpecFormula (r s : ℝ) : ℝ :=
  ((4 / 0.008) * (1.38 ^ 2 / (2 * (2 * Real.pi / 0.55) ^ 2))) * r / (-s)

/-- Mean of a list of rationals; used by the order-0 polynomial-fit model. -/
def qMean (ys : List ℚ) : ℚ :=
  ys.sum / ys.length

/-- Modelled library call: `np.polyfit(x, ys, 0)` returns, per pixel, the
single degree-0 least-squares coefficient, which is the mean of the
samples (see `qMean_normal_equation` below for the normal-equation
justification). -/
def npPolyfitDeg0 (ys : List ℚ) : List ℚ :=
  [qMean ys]

/-- `PWSAnalysis._fitPolynomial` at `order = 0` for one pixel: the
reconstruction loop `cubePoly += wavenumbers ** i * polydata[order - i]`
over `i in range(order + 1)`. -/
def fitSpectrumDeg0PWS (wavenumbers ys : List ℚ) : List ℚ :=
  let coeffs := npPolyfitDeg0 ys
  wavenumbers.map (fun w =>
    ((List.range (0 + 1)).map (fun i => w ^ i * coeffs.getD (0 - i) 0)).sum)

/-- `Analysis._fitPolynomial` at `order = 0` for one pixel: the legacy
reconstruction loop `cubePoly += wavenumbers ** i * polydata[i]` (the
coefficient index ascends instead of descending). -/
def fitSpectrumDeg0Legacy (wavenumbers ys : List ℚ) : List ℚ :=
  let coeffs := npPolyfitDeg0 ys
  wavenumbers.map (fun w =>
    ((List.range (0 + 1)).map (fun i => w ^ i * coeffs.getD i 0)).sum)

/-- Cube-level order-0 fit, pws.py variant (one independent fit per pixel). -/
def fitPolynomialDeg0PWS (wavenumbers : List ℚ) (data : List (List ℚ)) : List (List ℚ) :=
  data.map (fitSpectrumDeg0PWS wavenumbers)

/-- Cube-level order-0 fit, legacy variant. -/
def fitPolynomialDeg0Legacy (wavenumbers : List ℚ) (data : List (List ℚ)) : List (List ℚ) :=
  data.map (fitSpectrumDeg0Legacy wavenumbers)

/-- Detrending at order 0, pws.py variant: `cube.data - cubePoly`. -/
def detrendDeg0PWS (wavenumbers : List ℚ) (data : List (List ℚ)) : List (List ℚ) :=
  cubeZip (fun a b => a - b) data (fitPolynomialDeg0PWS wavenumbers data)

/-- Detrending at order 0, legacy variant. -/
def detrendDeg0Legacy (wavenumbers : List ℚ) (data : List (List ℚ)) : List (List ℚ) :=
  cubeZip (fun a b => a - b) data (fitPolynomialDeg0Legacy wavenumbers data)

/-- Values stored in a legacy HDF5 results file (analysisResults.py): byte
strings, numeric datasets, or the reflectance `KCube` group with its two
datasets.  Payloads are rationals so that the persistence layer stays
decidable. -/
inductive HVal where
  | hStr (s : String)
  | hArr (a : List ℚ)
  | hCube (data : List ℚ) (wavenumbers : List ℚ)
  deriving DecidableEq

/-- Modelled from the spec: the legacy `AnalysisSettings`
(analysisSettings.py is not under `src/`); persistence only sees its
serialized JSON text, held here verbatim. -/
structure LegacyAnalysisSettings where
  json : String
  deriving DecidableEq

/-- The legacy `AnalysisResults` dataclass (analysisResults.py), field for
field and in declaration order; `None`-able fields are options. -/
structure AnalysisResults where
  settings : LegacyAnalysisSettings
  reflectance : Option (List ℚ × List ℚ)
  meanReflectance : Option (List ℚ)
  rms : Option (List ℚ)
  polynomialRms : Option (List ℚ)
  autoCorrelationSlope : Option (List ℚ)
  rSquared : Option (List ℚ)
  ld : Option (List ℚ)
  opd : Option (List ℚ)
  opdIndex : Option (List ℚ)
  imCubeIdTag : String
  referenceIdTag : String
  extraReflectionTag : Option String
  time : String
  deriving DecidableEq

/-- One optional array entry of the `toHDF5` loop: `None` values are simply
not written. -/
def optEntry (k : String) : Option (List ℚ) → List (String × HVal)
  | some a => [(k, HVal.hArr a)]
  | none => []

/-- The dataset contents written by `AnalysisResults.toHDF5`
(analysisResults.py): one named dataset per non-`None` field of
`self.__dict__` in field order; `settings` is serialized to its JSON
string, strings are stored as byte strings, the reflectance `KCube` as a
group. -/
def AnalysisResults.serialize (r : AnalysisResults) : List (String × HVal) :=
  [("settings", HVal.hStr r.settings.json)] ++
  (match r.reflectance with
   | some kc => [("reflectance", HVal.hCube kc.1 kc.2)]
   | none => []) ++
  optEntry "meanReflectance" r.meanReflectance ++
  optEntry "rms" r.rms ++
  optEntry "polynomialRms" r.polynomialRms ++
  optEntry "autoCorrelationSlope" r.autoCorrelationSlope ++
  optEntry "rSquared" r.rSquared ++
  optEntry "ld" r.ld ++
  optEntry "opd" r.opd ++
  optEntry "opdIndex" r.opdIndex ++
  [("imCubeIdTag", HVal.hStr r.imCubeIdTag),
   ("referenceIdTag", HVal.hStr r.referenceIdTag)] ++
  (match r.extraReflectionTag with
   | some t => [("extraReflectionTag", HVal.hStr t)]
   | none => []) ++
  [("time", HVal.hStr r.time)]

/-- `AbstractAnalysisResults.name2FileName` (identical copies in
analysisResults.py and pws.py). -/
def name2FileName (name : String) : String :=
  "analysisResults_" ++ name ++ ".h5"

/-- A directory of results files: path to stored datasets. -/
def ResultsFS : Type :=
  List (String × List (String × HVal))

/-- `AnalysisResults.toHDF5` (analysisResults.py): the target path is the
directory joined with the derived file name; if the path already exists
an `OSError` is raised before anything is written, otherwise the
serialized record is stored at the path.  The returned file system is the
post-call state. -/
def AnalysisResults.toHDF5 (fs : ResultsFS) (directory name : String)
    (r : AnalysisResults) : ResultsFS × Except String Unit :=
  let fileName := directory ++ "/" ++ name2FileName name
  if (List.lookup fileName fs).isSome then
    (fs, Except.error (fileName ++ " already exists."))
  else
    ((fileName, r.serialize) :: fs, Except.ok ())

namespace AnalysisResultsLoader

/-- Dataset each lazy accessor of `AnalysisResultsLoader`
(analysisResults.py) reads; the per-field decoding applied after the read
is dropped since the round-trip claims compare stored payloads.  Note
that the `meanReflectance` accessor reads the `reflectance` dataset
(line 175) and the `opdIndex` accessor reads a dataset named `xvalOpd`
(line 203). -/
def settings (file : List (String × HVal)) : Option HVal :=
  List.lookup "settings" file

/-- Accessor `imCubeIdTag`. -/
def imCubeIdTag (file : List (String × HVal)) : Option HVal :=
  List.lookup "imCubeIdTag" file

/-- Accessor `referenceIdTag`. -/
def referenceIdTag (file : List (String × HVal)) : Option HVal :=
  List.lookup "referenceIdTag" file

/-- Accessor `time`. -/
def time (file : List (String × HVal)) : Option HVal :=
  List.lookup "time" file

/-- Accessor `reflectance`. -/
def reflectance (file : List (String × HVal)) : Option HVal :=
  List.lookup "reflectance" file

/-- Accessor `meanReflectance`: the source reads
`np.ndarray(self.file['reflectance'])` — the `reflectance` dataset. -/
def meanReflectance (file : List (String × HVal)) : Option HVal :=
  List.lookup "reflectance" file

/-- Accessor `rms`. -/
def rms (file : List (String × HVal)) : Option HVal :=
  List.lookup "rms" file

/-- Accessor `polynomialRms`. -/
def polynomialRms (file : List (String × HVal)) : Option HVal :=
  List.lookup "polynomialRms" file

/-- Accessor `autoCorrelationSlope`. -/
def autoCorrelationSlope (file : List (String × HVal)) : Option HVal :=
  List.lookup "autoCorrelationSlope" file

/-- Accessor `rSquared`. -/
def rSquared (file : List (String × HVal)) : Option HVal :=
  List.lookup "rSquared" file

/-- Accessor `ld`. -/
def ld (file : List (String × HVal)) : Option HVal :=
  List.lookup "ld" file

/-- Accessor `opd`. -/
def opd (file : List (String × HVal)) : Option HVal :=
  List.lookup "opd" file

/-- Accessor `opdIndex`: the source reads `self.file['xvalOpd']`. -/
def opdIndex (file : List (String × HVal)) : Option HVal :=
  List.lookup "xvalOpd" file

/-- Accessor `extraReflectionTag`. -/
def extraReflectionTag (file : List (String × HVal)) : Option HVal :=
  List.lookup "extraReflectionTag" file

/-- The accessors `loadAllFromDisk` (analysisResults.py, lines 209 to 215)
touches, in source order. -/
def loadAllAccessed : List String :=
  ["opdIndex", "opd", "ld", "rSquared", "autoCorrelationSlope", "polynomialRms",
   "rms", "reflectance", "time", "referenceIdTag", "imCubeIdTag", "settings",
   "extraReflectionTag"]

end AnalysisResultsLoader

/-- Every field of the results data model: the abstract properties of
`AbstractAnalysisResults` (analysisResults.py, lines 18 to 88). -/
def abstractResultFields : List String :=
  ["settings", "reflectance", "meanReflectance", "rms", "polynomialRms",
   "autoCorrelationSlope", "rSquared", "ld", "opd", "opdIndex", "time",
   "imCubeIdTag", "referenceIdTag", "extraReflectionTag"]

/-- A Python exception as far as the loader error claims are concerned: a
`KeyError` carrying its argument. -/
inductive PyErr where
  | keyError (msg : String)
  deriving DecidableEq

/-- The message `clearError` (pws.py) attaches when re-raising. -/
def clearErrorMsg (name : String) : String :=
  "The analysis file does not contain a " ++ name ++ " item."

/-- `clearError` (pws.py): a `KeyError` escaping the wrapped accessor is
replaced by a `KeyError` whose message names the accessor. -/
def clearErrorWrap (name : String) : Except PyErr HVal → Except PyErr HVal
  | Except.error (PyErr.keyError _) => Except.error (PyErr.keyError (clearErrorMsg name))
  | Except.ok v => Except.ok v

/-- Indexing an open HDF5 file: a missing dataset raises `KeyError(key)`. -/
def rawFileRead (file : List (String × HVal)) (key : String) : Except PyErr HVal :=
  match List.lookup key file with
  | some v => Except.ok v
  | none => Except.error (PyErr.keyError key)

namespace PWSAnalysisResults

/-- `PWSAnalysisResults.fields()` (pws.py): the fields with stored datasets;
each field accessor reads the dataset of its own name (its decoding after
the read cannot raise `KeyError` and is dropped here). -/
def fields : List String :=
  ["time", "reflectance", "meanReflectance", "rms", "polynomialRms",
   "autoCorrelationSlope", "rSquared", "ld", "imCubeIdTag", "referenceIdTag",
   "extraReflectionTag", "settings"]

/-- A file-backed field access of `PWSAnalysisResults` (pws.py): the
`clearError`-wrapped read of the dataset named after the accessor. -/
def fieldAccess (file : List (String × HVal)) (name : String) : Except PyErr HVal :=
  clearErrorWrap name (rawFileRead file name)

end PWSAnalysisResults

/-- The separator `'analysisResults_'` of `fileName2Name`, as characters. -/
def sepChars : List Char :=
  ['a', 'n', 'a', 'l', 'y', 's', 'i', 's', 'R', 'e', 's', 'u', 'l', 't', 's', '_']

/-- Python `str.split(sep)` for the fixed separator `'analysisResults_'`:
scans left to right, cutting at each non-overlapping occurrence; `acc`
holds the reversed characters of the chunk being built. -/
def splitAR : List Char → List Char → List (List Char)
  | [], acc => [acc.reverse]
  | c :: rest, acc =>
    if sepChars.isPrefixOf (c :: rest) then
      acc.reverse :: splitAR ((c :: rest).drop sepChars.length) []
    else
      splitAR rest (c :: acc)
  termination_by s _ => s.length
  decreasing_by
  · have h16 : sepChars.length = 16 := rfl
    simp only [List.length_drop, List.length_cons, h16]
    omega
  · simp

/-- Whether `sep` occurs as a contiguous substring. -/
def containsSub (sep : List Char) : List Char → Bool
  | [] => sep.isPrefixOf []
  | c :: rest => sep.isPrefixOf (c :: rest) || containsSub sep rest

/-- `AbstractAnalysisResults.fileName2Name` (identical copies in
analysisResults.py and pws.py):
`fileName.split('analysisResults_')[1][:-3]`; the indexing raises when the
split yields fewer than two parts, embedded as `none`. -/
def fileName2Name (fileName : String) : Option String :=
  match splitAR fileName.toList [] with
  | _ :: second :: _ => some ⟨second.take (second.length - 3)⟩
  | _ => none

/-- A concrete legacy results record used to evaluate the persistence layer. -/
def exampleRecord : AnalysisResults :=
  { settings := ⟨"settingsJsonPayload"⟩
    reflectance := some ([1, 2, 10, 20], [100, 101])
    meanReflectance := some [3, 4]
    rms := some [5]
    polynomialRms := none
    autoCorrelationSlope := none
    rSquared := none
    ld := none
    opd := none
    opdIndex := some [7]
    imCubeIdTag := "cubeTag"
    referenceIdTag := "refTag"
    extraReflectionTag := none
    time := "2019-04-01 12:00:00" }

/-- A concrete directory that already holds a results file named `a`. -/
def exampleFS : ResultsFS :=
  [("d/analysisResults_a.h5", [("rms", HVal.hArr [9])])]

/-- Concrete stage implementations used to evaluate the pipeline at a point:
the filter and polynomial fit pass data through unchanged, the k-space
conversion keeps the axis, and the autocorrelation returns empty maps. -/
def exampleDeps : PipelineDeps :=
  { filterSignal := fun _ _ d _ => d
    npPolyfit := fun _ ys _ => ys
    kConvert := fun d w => (d, w)
    getAutoCorrelation := fun _ _ _ _ => ([], []) }

/-- Concrete analysis settings with `skipAdvanced` enabled. -/
noncomputable def exampleSettings : PWSAnalysisSettings :=
  { filterOrder := 2
    filterCutoff := 0.15
    polynomialOrder := 0
    extraReflectanceId := none
    referenceMaterial := some Material.Water
    wavelengthStart := 500
    wavelengthStop := 700
    skipAdvanced := true
    autoCorrStopIndex := 8
    autoCorrMinSub := false
    numericalAperture := 0.52
    relativeUnits := true
    cameraCorrection := none }

/-- A concrete sample cube. -/
noncomputable def exampleCube : ImCube :=
  ⟨[[1, 2]], [500, 600], 100, "cube1"⟩

/-- A concrete (already corrected) reference cube. -/
noncomputable def exampleRef : ImCube :=
  ⟨[[1, 1]], [500, 600], 100, "ref1"⟩

/-- One-pixel, one-wavelength reference cube separating the two correction
orders. -/
noncomputable def c1Ref : ImCube :=
  ⟨[[2]], [500], 1, "r"⟩

/-- One-pixel extra-reflection cube separating the two correction orders. -/
noncomputable def c1Extra : ExtraReflectionCube :=
  ⟨[[1]], "e"⟩

/-- One-pixel sample cube separating the two correction orders. -/
noncomputable def c1Cube : ImCube :=
  ⟨[[4]], [500], 1, "c"⟩

-- ## Theorems

/-- Settings dictionary round trip: `_fromDict` inverts `_asDict` (supporting
lemma for the persistence claims). -/
theorem pws_settings_dict_roundTrip (s : PWSAnalysisSettings) :
    PWSAnalysisSettings.fromDict (PWSAnalysisSettings.asDict s) = some s := by
  cases s with
  | mk fo fc po er rm ws wp sk ac ab na ru cc =>
    cases rm with
    | none => rfl
    | some m => cases m <;> rfl

/-- C4.  The claimed round trip fails on the code: for the concrete record
`exampleRecord`, the loader's `meanReflectance` accessor returns the
stored `reflectance` group rather than the written `meanReflectance`
array, and the `opdIndex` accessor reads a dataset `xvalOpd` that
`toHDF5` never writes (it writes `opdIndex`), so the read fails although
the value was written; an untouched field such as `rms` does read back
exactly. -/
theorem c4_roundtrip_fails_on_loader :
    AnalysisResultsLoader.meanReflectance (AnalysisResults.serialize exampleRecord) ≠
      some (HVal.hArr [3, 4])
    ∧ exampleRecord.meanReflectance = some [3, 4]
    ∧ AnalysisResultsLoader.meanReflectance (AnalysisResults.serialize exampleRecord) =
      some (HVal.hCube [1, 2, 10, 20] [100, 101])
    ∧ AnalysisResultsLoader.opdIndex (AnalysisResults.serialize exampleRecord) = none
    ∧ exampleRecord.opdIndex = some [7]
    ∧ AnalysisResultsLoader.rms (AnalysisResults.serialize exampleRecord) =
      some (HVal.hArr [5]) := by
  decide

/-- C5.  Writing a results record to a path that already exists fails with an
already-exists error and leaves the file system exactly as it was. -/
theorem c5_no_overwrite (fs : ResultsFS) (directory name : String)
    (r : AnalysisResults)
    (h : (List.lookup (directory ++ "/" ++ name2FileName name) fs).isSome = true) :
    AnalysisResults.toHDF5 fs directory name r =
      (fs, Except.error ((directory ++ "/" ++ name2FileName name) ++ " already exists.")) := by
  simp only [AnalysisResults.toHDF5, h, if_pos]

/-- Witness for C5 at a concrete directory state. -/
theorem c5_no_overwrite_witness :
    ((List.lookup ("d" ++ "/" ++ name2FileName "a") exampleFS).isSome = true)
    ∧ AnalysisResults.toHDF5 exampleFS "d" "a" exampleRecord =
      (exampleFS, Except.error (("d" ++ "/" ++ name2FileName "a") ++ " already exists.")) :=
  ⟨by decide, c5_no_overwrite exampleFS "d" "a" exampleRecord (by decide)⟩

/-- C6.  `loadAllFromDisk` does not touch every field of the data model: it
skips `meanReflectance` (contradicting its own docstring, which says it
accesses all cached properties), while touching every other field. -/
theorem c6_loadAll_skips_meanReflectance :
    "meanReflectance" ∈ abstractResultFields
    ∧ "meanReflectance" ∉ AnalysisResultsLoader.loadAllAccessed
    ∧ ∀ f ∈ abstractResultFields, f ≠ "meanReflectance" →
        f ∈ AnalysisResultsLoader.loadAllAccessed := by
  decide

/-- Two zipWiths agree when the combining functions agree pointwise. -/
theorem zipWith_ext {α β γ : Type} (f g : α → β → γ) (h : ∀ a b, f a b = g a b)
    (la : List α) (lb : List β) : List.zipWith f la lb = List.zipWith g la lb := by
  rw [show f = g from funext (fun a => funext (fun b => h a b))]

/-- The constant factor of the implemented Ld formula equals the constant
factor stated by the spec. -/
theorem ld_const_eq :
    ((4 : ℝ) / 0.008 * (1.38 * 1.38 / 2 / (2 * Real.pi / 0.55) / (2 * Real.pi / 0.55))) =
      (4 / 0.008) * (1.38 ^ 2 / (2 * (2 * Real.pi / 0.55) ^ 2)) := by
  have hk : (2 * Real.pi / 0.55 : ℝ) ≠ 0 := by positivity
  field_simp
  ring

/-- The implemented per-pixel Ld expression is exactly the spec formula. -/
theorem ld_pointwise (r s : ℝ) :
    ((4 : ℝ) / 0.008 * (1.38 * 1.38 / 2 / (2 * Real.pi / 0.55) / (2 * Real.pi / 0.55))) *
      (r / (-1 * s)) = ldSpecFormula r s := by
  rw [ldSpecFormula, neg_one_mul, ld_const_eq]
  exact (mul_div_assoc _ _ _).symm

/-- C2.  Both Ld implementations compute, per pixel, exactly
`((A2/A1) * fact) * rms / (-slope)` with `A1 = 0.008`, `A2 = 4`,
`k = 2 pi / 0.55`, `fact = 1.38 ^ 2 / (2 k ^ 2)`, dividing by the negated
slope. -/
theorem c2_ld_formula (rms slope : List ℝ) :
    PWSAnalysis.calculateLd rms slope = List.zipWith ldSpecFormula rms slope
    ∧ Analysis.calculateLd rms slope = List.zipWith ldSpecFormula rms slope := by
  constructor
  · simp only [PWSAnalysis.calculateLd]
    exact zipWith_ext _ _ ld_pointwise rms slope
  · simp only [Analysis.calculateLd]
    exact zipWith_ext _ _ ld_pointwise rms slope

/-- C1.  In every pipeline variant the corrected sample is the spec-order
composition (exposure normalization first on sample and reference, then
extra-reflection subtraction when supplied, then division by the
corrected reference), and the forbidden subtract-after-ratio order is a
genuinely different operation. -/
theorem c1_correction_order :
    (∀ ref extra cube,
      PWSAnalysis.normalizeImCube ref extra cube = specNormalizeSample ref extra cube)
    ∧ (∀ (settings : PWSAnalysisSettings) Iextra theoryR filterDust hasPixelSize ref,
      PWSAnalysis.prepareReference settings Iextra theoryR filterDust hasPixelSize ref =
        specCorrectReference settings.relativeUnits Iextra theoryR filterDust hasPixelSize ref)
    ∧ (∀ cameraCorrect cube ref,
      Analysis.normalizeImCube cameraCorrect cube ref =
        specNormalizeSample ((cameraCorrect ref).normalizeByExposure) none (cameraCorrect cube))
    ∧ (∃ ref e cube,
      PWSAnalysis.normalizeImCube ref (some e) cube ≠ subtractAfterRatio ref e cube) := by
  refine ⟨?_, ?_, ?_, ?_⟩
  · intro ref extra cube
    cases extra <;> rfl
  · intro s Iextra theoryR filterDust hasPixelSize ref
    cases hb : s.relativeUnits <;>
      simp [PWSAnalysis.prepareReference, specCorrectReference, hb]
  · intro cameraCorrect cube ref
    rfl
  · refine ⟨c1Ref, c1Extra, c1Cube, ?_⟩
    intro h
    have hd := congrArg ImCube.data h
    simp [PWSAnalysis.normalizeImCube, subtractAfterRatio, ImCube.normalizeByExposure,
      ImCube.subtractExtraReflection, ImCube.normalizeByReference, cubeZip,
      c1Ref, c1Extra, c1Cube] at hd
    norm_num at hd

/-- A list is a Boolean prefix of itself extended by anything. -/
theorem isPrefixOf_append_self (s t : List Char) : s.isPrefixOf (s ++ t) = true :=
  List.isPrefixOf_iff_prefix.mpr (List.prefix_append s t)

/-- A list occurs as a substring of any extension of itself on both sides. -/
theorem containsSub_append (s pre suf : List Char) :
    containsSub s (pre ++ s ++ suf) = true := by
  induction pre with
  | nil =>
    rw [List.nil_append]
    cases hss : s ++ suf with
    | nil =>
      obtain ⟨hs, hsu⟩ := List.append_eq_nil.mp hss
      subst hs
      rfl
    | cons c rest =>
      have hstep : containsSub s (c :: rest) =
          (s.isPrefixOf (c :: rest) || containsSub s rest) := rfl
      rw [hstep, ← hss, isPrefixOf_append_self]
      simp
  | cons p ps ih =>
    have : ((p :: ps) ++ s ++ suf) = p :: (ps ++ s ++ suf) := rfl
    rw [this]
    have h2 : containsSub s (p :: (ps ++ s ++ suf)) =
        (s.isPrefixOf (p :: (ps ++ s ++ suf)) || containsSub s (ps ++ s ++ suf)) := rfl
    rw [h2, ih]
    simp

/-- C8.  For every stored field of the pws.py results loader, reading it from
a file that lacks the dataset produces the `clearError` message, which
carries the missing field's name and differs from the generic key error
(whose payload is just the bare key). -/
theorem c8_missing_field_error (file : List (String × HVal)) (name : String)
    (_hmem : name ∈ PWSAnalysisResults.fields)
    (hmiss : List.lookup name file = none) :
    PWSAnalysisResults.fieldAccess file name =
      Except.error (PyErr.keyError (clearErrorMsg name))
    ∧ containsSub name.toList (clearErrorMsg name).toList = true
    ∧ clearErrorMsg name ≠ name := by
  refine ⟨?_, ?_, ?_⟩
  · simp [PWSAnalysisResults.fieldAccess, rawFileRead, hmiss, clearErrorWrap]
  · have h1 : (clearErrorMsg name).toList =
        "The analysis file does not contain a ".toList ++ name.toList ++ " item.".toList := by
      simp [clearErrorMsg, String.toList]
    rw [h1]
    exact containsSub_append _ _ _
  · intro h
    have hl := congrArg String.length h
    rw [clearErrorMsg, String.length_append, String.length_append] at hl
    have h37 : String.length "The analysis file does not contain a " = 37 := rfl
    have h6 : String.length " item." = 6 := rfl
    omega

/-- Witness for C8: the `rms` accessor against an empty file. -/
theorem c8_missing_field_error_witness :
    ("rms" ∈ PWSAnalysisResults.fields
      ∧ List.lookup "rms" ([] : List (String × HVal)) = none)
    ∧ (PWSAnalysisResults.fieldAccess [] "rms" =
        Except.error (PyErr.keyError (clearErrorMsg "rms"))
      ∧ containsSub "rms".toList (clearErrorMsg "rms").toList = true
      ∧ clearErrorMsg "rms" ≠ "rms") :=
  ⟨⟨by decide, rfl⟩, c8_missing_field_error [] "rms" (by decide) rfl⟩

/-- C9.  `PWSAnalysis.run` is deterministic: two runs on identical inputs with
identical settings agree on every stored field except the creation
timestamp, which is the only impure input (`datetime.now()`). -/
theorem c9_run_deterministic_up_to_time (deps : PipelineDeps)
    (settings : PWSAnalysisSettings) (ref : ImCube)
    (extra : Option ExtraReflectionCube) (cube : ImCube) (t1 t2 k : String)
    (hk : k ≠ "time") :
    (PWSAnalysis.run deps settings ref extra t1 cube).lookup k =
    (PWSAnalysis.run deps settings ref extra t2 cube).lookup k := by
  have hb : (k == "time") = false := beq_eq_false_iff_ne.mpr hk
  simp only [PWSAnalysis.run, PWSAnalysis.createDict, List.lookup, hb]

/-- Witness for C9: the `rms` field agrees across two runs with different
timestamps. -/
theorem c9_run_deterministic_witness :
    ("rms" ≠ "time")
    ∧ (PWSAnalysis.run exampleDeps exampleSettings exampleRef none "t1" exampleCube).lookup "rms" =
      (PWSAnalysis.run exampleDeps exampleSettings exampleRef none "t2" exampleCube).lookup "rms" :=
  ⟨by decide,
   c9_run_deterministic_up_to_time exampleDeps exampleSettings exampleRef none
     exampleCube "t1" "t2" "rms" (by decide)⟩

/-- C3 counterexample.  The claim as stated is false at a concrete run with
`skipAdvanced = true`: the created record stores no `opd` entry at all, so
its `opd` value is not Python `None` — the dictionary lookup is empty and
the accessor raises a missing-item `KeyError` instead. -/
theorem c3_opd_entry_missing :
    (PWSAnalysis.run exampleDeps exampleSettings exampleRef none "t0" exampleCube).lookup "opd" =
      none
    ∧ (PWSAnalysis.run exampleDeps exampleSettings exampleRef none "t0" exampleCube).lookup "opd" ≠
      some PWSVal.vNone
    ∧ getFromDictAccess
        (PWSAnalysis.run exampleDeps exampleSettings exampleRef none "t0" exampleCube) "opd" =
      Except.error "The analysis file does not contain a opd item." := by
  refine ⟨rfl, ?_, rfl⟩
  intro h
  rw [show (PWSAnalysis.run exampleDeps exampleSettings exampleRef none "t0"
      exampleCube).lookup "opd" = none from rfl] at h
  exact Option.noConfusion h

/-- C3 (amended).  With `skipAdvanced = true` the produced record holds `None`
for `polynomialRms`, `autoCorrelationSlope`, `rSquared` and `ld`, stores
no `opd` entry (reading `opd` from the in-memory record raises the
missing-item error rather than returning `None`), and the run performs no
autocorrelation (hence no Ld) computation: its output does not depend on
the autocorrelation implementation at all. -/
theorem c3_skip_advanced (deps1 deps2 : PipelineDeps)
    (settings : PWSAnalysisSettings) (ref : ImCube)
    (extra : Option ExtraReflectionCube) (now : String) (cube : ImCube)
    (hf : deps1.filterSignal = deps2.filterSignal)
    (hp : deps1.npPolyfit = deps2.npPolyfit)
    (hk : deps1.kConvert = deps2.kConvert)
    (hskip : settings.skipAdvanced = true) :
    ((PWSAnalysis.run deps1 settings ref extra now cube).lookup "polynomialRms" =
      some PWSVal.vNone)
    ∧ ((PWSAnalysis.run deps1 settings ref extra now cube).lookup "autoCorrelationSlope" =
      some PWSVal.vNone)
    ∧ ((PWSAnalysis.run deps1 settings ref extra now cube).lookup "rSquared" =
      some PWSVal.vNone)
    ∧ ((PWSAnalysis.run deps1 settings ref extra now cube).lookup "ld" =
      some PWSVal.vNone)
    ∧ ((PWSAnalysis.run deps1 settings ref extra now cube).lookup "opd" = none)
    ∧ (getFromDictAccess (PWSAnalysis.run deps1 settings ref extra now cube) "opd" =
      Except.error "The analysis file does not contain a opd item.")
    ∧ PWSAnalysis.run deps1 settings ref extra now cube =
      PWSAnalysis.run deps2 settings ref extra now cube := by
  obtain ⟨f1, p1, k1, a1⟩ := deps1
  obtain ⟨f2, p2, k2, a2⟩ := deps2
  dsimp only at hf hp hk
  subst hf
  subst hp
  subst hk
  simp only [PWSAnalysis.run, hskip, Bool.not_true, Bool.false_eq_true, if_false]
  refine ⟨?_, ?_, ?_, ?_, ?_, ?_, ?_⟩ <;> first | rfl | trivial

/-- Witness for C3 at a concrete run with `skipAdvanced` enabled. -/
theorem c3_skip_advanced_witness :
    exampleSettings.skipAdvanced = true
    ∧ ((PWSAnalysis.run exampleDeps exampleSettings exampleRef none "tW" exampleCube).lookup "ld" =
      some PWSVal.vNone) :=
  ⟨rfl,
   (c3_skip_advanced exampleDeps exampleDeps exampleSettings exampleRef none "tW"
     exampleCube rfl rfl rfl rfl).2.2.2.1⟩

/-- Sum of deviations from a constant. -/
theorem sum_map_sub_const (ys : List ℚ) (m : ℚ) :
    (ys.map (fun y => y - m)).sum = ys.sum - ys.length * m := by
  induction ys with
  | nil => simp
  | cons y t ih =>
    simp [ih]
    ring

/-- The mean of a constant list is the constant. -/
theorem qMean_replicate (n : ℕ) (c : ℚ) (hn : 0 < n) :
    qMean (List.replicate n c) = c := by
  have hne : (n : ℚ) ≠ 0 := Nat.cast_ne_zero.mpr hn.ne'
  rw [qMean, List.sum_replicate, List.length_replicate, nsmul_eq_mul, mul_comm,
    mul_div_assoc, div_self hne, mul_one]

/-- Justification that the degree-0 `np.polyfit` model is the least-squares
solution: the mean is the unique constant satisfying the degree-0 normal
equation (sum of residuals vanishes). -/
theorem qMean_normal_equation (ys : List ℚ) (hys : ys ≠ []) :
    (ys.map (fun y => y - qMean ys)).sum = 0
    ∧ ∀ m, (ys.map (fun y => y - m)).sum = 0 → m = qMean ys := by
  have hpos : 0 < ys.length := List.length_pos.mpr hys
  have hne : (ys.length : ℚ) ≠ 0 := Nat.cast_ne_zero.mpr hpos.ne'
  constructor
  · rw [sum_map_sub_const, qMean, mul_comm, div_mul_cancel₀ _ hne, sub_self]
  · intro m hm
    rw [sum_map_sub_const] at hm
    rw [qMean]
    field_simp
    linarith

/-- Order-0 fit of a constant spectrum, for one pixel, in both coefficient
ordering conventions. -/
theorem fitSpectrumDeg0_const (w : List ℚ) (n : ℕ) (c : ℚ) (hn : 0 < n) :
    fitSpectrumDeg0PWS w (List.replicate n c) = List.replicate w.length c
    ∧ fitSpectrumDeg0Legacy w (List.replicate n c) = List.replicate w.length c := by
  have hm := qMean_replicate n c hn
  have hr : List.range 1 = [0] := rfl
  constructor <;>
    simp [fitSpectrumDeg0PWS, fitSpectrumDeg0Legacy, npPolyfitDeg0, hm, hr,
      List.map_const']

/-- Subtracting a per-pixel-constant cube from itself gives the zero cube. -/
theorem zip_sub_self_cube (n : ℕ) (data : List (List ℚ))
    (hdata : ∀ px ∈ data, ∃ c, px = List.replicate n c) :
    cubeZip (fun a b => a - b) data data =
      List.replicate data.length (List.replicate n 0) := by
  induction data with
  | nil => rfl
  | cons px t ih =>
    obtain ⟨c, hc⟩ := hdata px (List.mem_cons_self _ _)
    have ht := ih (fun q hq => hdata q (List.mem_cons_of_mem _ hq))
    have hhead : List.zipWith (fun a b : ℚ => a - b) (List.replicate n c) (List.replicate n c) =
        List.replicate n (0 : ℚ) := by
      simp [List.zipWith_replicate (f := fun a b : ℚ => a - b) (n := n) (a := c) (b := c)]
    simp only [List.length_cons, List.replicate_succ, cubeZip, List.zipWith_cons_cons, hc, hhead]
    simpa [cubeZip] using ht

/-- C7.  For a cube whose spectrum at each pixel is constant along the
spectral axis (each pixel with its own constant), the order-0 polynomial
fit returns, at every spectral point, exactly that pixel's constant — the
fit cube equals the input cube — in both the pws.py and legacy
coefficient-ordering conventions, and detrending yields the all-zero
reflectance cube. -/
theorem c7_order0_constant_fit (w : List ℚ) (n : ℕ) (data : List (List ℚ))
    (hn : 0 < n) (hw : w.length = n)
    (hdata : ∀ px ∈ data, ∃ c, px = List.replicate n c) :
    fitPolynomialDeg0PWS w data = data
    ∧ fitPolynomialDeg0Legacy w data = data
    ∧ detrendDeg0PWS w data = List.replicate data.length (List.replicate n 0)
    ∧ detrendDeg0Legacy w data = List.replicate data.length (List.replicate n 0) := by
  have hPWS : fitPolynomialDeg0PWS w data = data := by
    have hmap : data.map (fitSpectrumDeg0PWS w) = data.map id :=
      List.map_congr_left (fun px hpx => by
        obtain ⟨c, hc⟩ := hdata px hpx
        rw [hc, (fitSpectrumDeg0_const w n c hn).1, hw, id])
    rw [fitPolynomialDeg0PWS, hmap, List.map_id]
  have hLeg : fitPolynomialDeg0Legacy w data = data := by
    have hmap : data.map (fitSpectrumDeg0Legacy w) = data.map id :=
      List.map_congr_left (fun px hpx => by
        obtain ⟨c, hc⟩ := hdata px hpx
        rw [hc, (fitSpectrumDeg0_const w n c hn).2, hw, id])
    rw [fitPolynomialDeg0Legacy, hmap, List.map_id]
  refine ⟨hPWS, hLeg, ?_, ?_⟩
  · rw [detrendDeg0PWS, hPWS]
    exact zip_sub_self_cube n data hdata
  · rw [detrendDeg0Legacy, hLeg]
    exact zip_sub_self_cube n data hdata

/-- Witness for C7 on a concrete cube with two distinct per-pixel
constants. -/
theorem c7_order0_constant_fit_witness :
    ((0 : ℕ) < 2
      ∧ ([3, 7] : List ℚ).length = 2
      ∧ (∀ px ∈ ([[5, 5], [7, 7]] : List (List ℚ)), ∃ c, px = List.replicate 2 c))
    ∧ fitPolynomialDeg0PWS [3, 7] [[5, 5], [7, 7]] = [[5, 5], [7, 7]]
    ∧ detrendDeg0PWS [3, 7] [[5, 5], [7, 7]] =
      List.replicate 2 (List.replicate 2 (0 : ℚ)) := by
  have hmem : ∀ px ∈ ([[5, 5], [7, 7]] : List (List ℚ)), ∃ c, px = List.replicate 2 c := by
    intro px hpx
    cases hpx with
    | head => exact ⟨5, rfl⟩
    | tail _ h2 =>
      cases h2 with
      | head => exact ⟨7, rfl⟩
      | tail _ h3 => cases h3
  exact ⟨⟨by decide, rfl, hmem⟩,
    (c7_order0_constant_fit [3, 7] 2 [[5, 5], [7, 7]] (by decide) rfl hmem).1,
    (c7_order0_constant_fit [3, 7] 2 [[5, 5], [7, 7]] (by decide) rfl hmem).2.2.1⟩

/-- One unfolding step of the split scan. -/
theorem splitAR_cons (c : Char) (rest acc : List Char) :
    splitAR (c :: rest) acc =
      if sepChars.isPrefixOf (c :: rest) then
        acc.reverse :: splitAR ((c :: rest).drop sepChars.length) []
      else splitAR rest (c :: acc) := by
  simp only [splitAR]

/-- A scan over a chunk free of the separator yields no further cut. -/
theorem splitAR_no_occurrence (s : List Char) :
    ∀ acc, containsSub sepChars s = false → splitAR s acc = [acc.reverse ++ s] := by
  induction s with
  | nil =>
    intro acc _
    simp [splitAR]
  | cons c rest ih =>
    intro acc h
    have h1 : sepChars.isPrefixOf (c :: rest) = false ∧ containsSub sepChars rest = false := by
      have hu : containsSub sepChars (c :: rest) =
          (sepChars.isPrefixOf (c :: rest) || containsSub sepChars rest) := rfl
      rw [hu, Bool.or_eq_false_iff] at h
      exact h
    rw [splitAR_cons, if_neg (by simp [h1.1]), ih (c :: acc) h1.2]
    simp

/-- A scan of a list that starts with the separator cuts there first. -/
theorem splitAR_cons_sep (t : List Char) :
    splitAR (sepChars ++ t) [] = [] :: splitAR t [] := by
  have hshape : sepChars ++ t = 'a' ::
      (['n', 'a', 'l', 'y', 's', 'i', 's', 'R', 'e', 's', 'u', 'l', 't', 's', '_'] ++ t) := rfl
  rw [hshape, splitAR_cons, if_pos (by rw [← hshape]; exact isPrefixOf_append_self _ _)]
  rw [show ('a' ::
      (['n', 'a', 'l', 'y', 's', 'i', 's', 'R', 'e', 's', 'u', 'l', 't', 's', '_'] ++ t)).drop
      sepChars.length = t from List.drop_left sepChars t]
  rfl

/-- Appending the `.h5` extension cannot create an occurrence of the
separator: the separator is sixteen letters long and contains no dot. -/
theorem contains_no_h5 (l : List Char) (h : containsSub sepChars l = false) :
    containsSub sepChars (l ++ ['.', 'h', '5']) = false := by
  induction l with
  | nil => decide
  | cons c rest ih =>
    have h1 : sepChars.isPrefixOf (c :: rest) = false ∧ containsSub sepChars rest = false := by
      have hu : containsSub sepChars (c :: rest) =
          (sepChars.isPrefixOf (c :: rest) || containsSub sepChars rest) := rfl
      rw [hu, Bool.or_eq_false_iff] at h
      exact h
    have h2 := ih h1.2
    have hu2 : containsSub sepChars ((c :: rest) ++ ['.', 'h', '5']) =
        (sepChars.isPrefixOf (c :: (rest ++ ['.', 'h', '5'])) ||
          containsSub sepChars (rest ++ ['.', 'h', '5'])) := rfl
    rw [hu2, h2, Bool.or_false]
    by_contra hb
    have hb2 : sepChars.isPrefixOf (c :: (rest ++ ['.', 'h', '5'])) = true := by
      revert hb
      cases sepChars.isPrefixOf (c :: (rest ++ ['.', 'h', '5'])) <;> simp
    have hpfx : sepChars <+: (c :: rest) ++ ['.', 'h', '5'] :=
      List.isPrefixOf_iff_prefix.mp hb2
    have hcr : (c :: rest) <+: (c :: rest) ++ ['.', 'h', '5'] := List.prefix_append _ _
    rcases List.prefix_or_prefix_of_prefix hpfx hcr with hA | hB
    · rw [← List.isPrefixOf_iff_prefix] at hA
      rw [hA] at h1
      exact Bool.noConfusion h1.1
    · obtain ⟨r, hr⟩ := hB
      cases r with
      | nil =>
        rw [List.append_nil] at hr
        have hself : sepChars.isPrefixOf (c :: rest) = true := by
          rw [hr]
          have h0 := isPrefixOf_append_self sepChars []
          rwa [List.append_nil] at h0
        rw [hself] at h1
        exact Bool.noConfusion h1.1
      | cons d rs =>
        have hdr : (d :: rs) <+: ['.', 'h', '5'] := by
          rw [← hr] at hpfx
          exact (List.prefix_append_right_inj (c :: rest)).mp hpfx
        have hd : d = '.' := (List.cons_prefix_cons.mp hdr).1
        have hmem : d ∈ sepChars := by
          rw [← hr]
          exact List.mem_append_right _ (List.mem_cons_self _ _)
        rw [hd] at hmem
        exact absurd hmem (by decide)

/-- C10.  For every analysis name free of the substring
`analysisResults_`, converting the name to a file name and back is the
identity. -/
theorem c10_filename_roundtrip (n : String)
    (h : containsSub sepChars n.toList = false) :
    fileName2Name (name2FileName n) = some n := by
  have hlist : (name2FileName n).toList = sepChars ++ (n.toList ++ ['.', 'h', '5']) := by
    rw [name2FileName]
    have h1 : ("analysisResults_" ++ n ++ ".h5").data =
        ("analysisResults_" ++ n).data ++ (".h5").data := String.data_append _ _
    have h2 : ("analysisResults_" ++ n).data =
        ("analysisResults_").data ++ n.data := String.data_append _ _
    show ("analysisResults_" ++ n ++ ".h5").data = _
    rw [h1, h2]
    rw [show ("analysisResults_").data = sepChars from rfl,
      show (".h5").data = ['.', 'h', '5'] from rfl]
    rw [List.append_assoc]
    rfl
  have hsplit : splitAR (name2FileName n).toList [] =
      [[], n.toList ++ ['.', 'h', '5']] := by
    rw [hlist, splitAR_cons_sep,
      splitAR_no_occurrence (n.toList ++ ['.', 'h', '5']) [] (contains_no_h5 _ h)]
    rfl
  rw [fileName2Name, hsplit]
  show some (⟨(n.toList ++ ['.', 'h', '5']).take
      ((n.toList ++ ['.', 'h', '5']).length - 3)⟩ : String) = some n
  have hlen : (n.toList ++ ['.', 'h', '5']).length - 3 = n.toList.length := by
    simp
  rw [hlen, List.take_left]
  rfl

/-- Witness for C10 on the name `cells`. -/
theorem c10_filename_roundtrip_witness :
    containsSub sepChars "cells".toList = false
    ∧ fileName2Name (name2FileName "cells") = some "cells" :=
  ⟨by decide, c10_filename_roundtrip "cells" (by decide)⟩

end PWSpy
